import Mathlib

/-!
Verification of the database setup helper (scripts/setup-databases.py).

The script is embedded shallowly.  The operating system is modelled by an
oracle mapping the index of an external-command invocation and the command
text to an outcome (exit code and standard output).  A `World` carries the
oracle, the number of commands issued so far, and a trace of observable
events (command runs, sleeps, directory creation).  Every Python function of
the script is translated to a Lean function threading the `World`.
-/

namespace DungeonGate

/-- Outcome of one external command: exit code and captured standard output. -/
structure CmdOutcome where
  exitCode : Nat
  stdout : String
deriving DecidableEq

/-- The operating-system oracle: outcome of the n-th command invocation,
possibly depending on the command text. -/
abbrev Oracle := Nat → String → CmdOutcome

/-- Observable events of a run: an external command invocation with its
outcome, a sleep (time.sleep), and a directory creation (os.makedirs). -/
inductive Event where
  | run (cmd : String) (out : CmdOutcome)
  | sleep (secs : Nat)
  | mkdirs (path : String)
deriving DecidableEq

/-- Process state: the oracle, how many commands were issued so far, the
event trace, and whether the test-data directory is writable
(the os.access check used by the file-based verification). -/
structure World where
  oracle : Oracle
  calls : Nat
  trace : List Event
  writable : Bool

/-- Return value of run_command: captured (stripped) stdout when
capture_output is set, otherwise the boolean success flag. -/
inductive RunRet where
  | captured (s : String)
  | flag (b : Bool)
deriving DecidableEq

/-- Embedding of run_command(cmd, check, capture_output) at the level of a
single outcome.  With check=True a non-zero exit raises
subprocess.CalledProcessError, modelled as `Except.error`.  Otherwise, with
capture_output=True the stripped stdout is returned, else returncode == 0. -/
def run_command (out : CmdOutcome) (check capture : Bool) : Except Unit RunRet :=
  if check && !(out.exitCode == 0) then Except.error ()
  else if capture then Except.ok (RunRet.captured out.stdout.trim)
  else Except.ok (RunRet.flag (out.exitCode == 0))

/-- World-level command invocation as used by the provisioners: every call
site in the script passes check=False and no capture_output, so the call
returns returncode == 0 and never raises.  The outcome is drawn from the
oracle at the current call index and recorded in the trace. -/
def runCmd (cmd : String) (w : World) : Bool × World :=
  let out := w.oracle w.calls cmd
  (out.exitCode == 0,
   { w with calls := w.calls + 1, trace := w.trace ++ [Event.run cmd out] })

/-- time.sleep(1) between readiness probes. -/
def sleep1 (w : World) : World :=
  { w with trace := w.trace ++ [Event.sleep 1] }

/- The exact command strings issued by the script (\x27 is the single
quote character). -/

def whichPsqlCmd : String := "which psql"

def pgProbeCmd : String := "pg_isready -h localhost -p 5432"

def pgStartMacCmd : String := "brew services start postgresql"

def pgStartLinuxCmd : String := "sudo systemctl start postgresql"

def createUserCmd : String := "createuser -h localhost dungeongate_test"

def createDbCmd : String := "createdb -h localhost -O dungeongate_test dungeongate_test"

def alterPwCmd : String :=
  "psql -h localhost -c \"ALTER USER dungeongate_test PASSWORD \x27testpass123\x27;\" "

def whichMysqlCmd : String := "which mysql"

def mysqlProbeCmd : String := "mysqladmin ping -h localhost"

def mysqlStartMacCmd : String := "brew services start mysql"

def mysqlStartLinuxCmd : String := "sudo systemctl start mysql"

/-- The four SQL statements of mysql_commands, in source order. -/
def mysql_commands : List String :=
  ["CREATE DATABASE IF NOT EXISTS dungeongate_mysql_test;",
   "CREATE USER IF NOT EXISTS \x27dungeongate_mysql\x27@\x27localhost\x27 IDENTIFIED BY \x27mysql_test_pass\x27;",
   "GRANT ALL PRIVILEGES ON dungeongate_mysql_test.* TO \x27dungeongate_mysql\x27@\x27localhost\x27;",
   "FLUSH PRIVILEGES;"]

/-- The f-string wrapping one SQL statement into a mysql client call. -/
def mysqlExec (s : String) : String := "mysql -h localhost -e \"" ++ s ++ "\""

def pgTestCmd : String :=
  "psql -h localhost -U dungeongate_test -d dungeongate_test -c \x27SELECT 1;\x27"

def mysqlTestCmd : String :=
  "mysql -h localhost -u dungeongate_mysql -pmysql_test_pass dungeongate_mysql_test -e \x27SELECT 1;\x27"

/-- setup_sqlite: creates the test-data directory and returns True. -/
def setup_sqlite (w : World) : Bool × World :=
  (true, { w with trace := w.trace ++ [Event.mkdirs "test-data/sqlite"] })

/-- The script's wait loop, `for _ in range(30)` with a for-else clause:
probe; on success break (return true); otherwise sleep 1 and retry; when the
range is exhausted the else clause reports failure.  Shared shape between
the PostgreSQL and MySQL provisioners, parameterised by the probe command. -/
def waitLoop (probeCmd : String) : Nat → World → Bool × World
  | 0, w => (false, w)
  | Nat.succ n, w =>
    let p := runCmd probeCmd w
    if p.1 then (true, p.2) else waitLoop probeCmd n (sleep1 p.2)

/-- The resource-creation step of setup_postgresql: createuser, createdb,
ALTER USER password, each with check=False and the result discarded. -/
def pgCreateResources (w : World) : World :=
  let a := runCmd createUserCmd w
  let b := runCmd createDbCmd a.2
  let c := runCmd alterPwCmd b.2
  c.2

/-- setup_postgresql: install check, readiness check, platform-conditional
start plus wait loop when not ready, then resource creation. -/
def setup_postgresql (darwin : Bool) (w : World) : Bool × World :=
  let inst := runCmd whichPsqlCmd w
  if !inst.1 then (false, inst.2)
  else
    let r0 := runCmd pgProbeCmd inst.2
    if r0.1 then (true, pgCreateResources r0.2)
    else
      let st := if darwin then runCmd pgStartMacCmd r0.2 else runCmd pgStartLinuxCmd r0.2
      let wl := waitLoop pgProbeCmd 30 st.2
      if wl.1 then (true, pgCreateResources wl.2) else (false, wl.2)

/-- setup_postgresql_replica: runs setup_postgresql; on failure returns
False, otherwise prints guidance text only and returns True. -/
def setup_postgresql_replica (darwin : Bool) (w : World) : Bool × World :=
  let b := setup_postgresql darwin w
  if !b.1 then (false, b.2) else (true, b.2)

/-- The resource-creation step of setup_mysql: each statement of
mysql_commands is issued through the mysql client, result discarded. -/
def mysqlCreateResources (w : World) : World :=
  mysql_commands.foldl (fun acc c => (runCmd (mysqlExec c) acc).2) w

/-- setup_mysql: same shape as setup_postgresql with the MySQL commands. -/
def setup_mysql (darwin : Bool) (w : World) : Bool × World :=
  let inst := runCmd whichMysqlCmd w
  if !inst.1 then (false, inst.2)
  else
    let r0 := runCmd mysqlProbeCmd inst.2
    if r0.1 then (true, mysqlCreateResources r0.2)
    else
      let st := if darwin then runCmd mysqlStartMacCmd r0.2 else runCmd mysqlStartLinuxCmd r0.2
      let wl := waitLoop mysqlProbeCmd 30 st.2
      if wl.1 then (true, mysqlCreateResources wl.2) else (false, wl.2)

/-- The three concrete backends of the script. -/
inductive Db where
  | sqlite
  | postgresql
  | mysql
deriving DecidableEq

/-- test_connection(db_type): file access for sqlite, a tolerant SELECT 1
through the respective client otherwise. -/
def test_connection (db : Db) (w : World) : Bool × World :=
  match db with
  | Db.sqlite => (w.writable, w)
  | Db.postgresql => runCmd pgTestCmd w
  | Db.mysql => runCmd mysqlTestCmd w

/-- Instrumentation record of one iteration of the main loop: which backend
was provisioned, what its provisioner returned, and the result of
test_connection when it was invoked (none when the gate skipped it). -/
structure RunEntry where
  db : Db
  provOk : Bool
  verify : Option Bool
deriving DecidableEq

/-- Dispatch of the main loop body: which provisioner runs for a backend,
honouring the --replica flag for postgresql. -/
def provisionOne (darwin replica : Bool) (db : Db) (w : World) : Bool × World :=
  match db with
  | Db.sqlite => setup_sqlite w
  | Db.postgresql =>
    if replica then setup_postgresql_replica darwin w else setup_postgresql darwin w
  | Db.mysql => setup_mysql darwin w

/-- The main loop of the script: for each backend, success &= provisioner;
then, if --test is set and the accumulated success flag still holds, invoke
test_connection and set success to False when it fails.  Returns the final
flag, the final world, and one instrumentation entry per backend. -/
def mainLoop (darwin test replica : Bool) :
    List Db → Bool → World → Bool × World × List RunEntry
  | [], success, w => (success, w, [])
  | db :: rest, success, w =>
    let pr := provisionOne darwin replica db w
    let s1 := success && pr.1
    let gate : Bool × World × Option Bool :=
      if test && s1 then
        let tc := test_connection db pr.2
        ((if tc.1 then s1 else false), tc.2, some tc.1)
      else (s1, pr.2, none)
    let k := mainLoop darwin test replica rest gate.1 gate.2.1
    (k.1, k.2.1, { db := db, provOk := pr.1, verify := gate.2.2 } :: k.2.2)

/-- The positional database argument (argparse restricts it to these). -/
inductive DbChoice where
  | sqlite
  | postgresql
  | mysql
  | all
deriving DecidableEq

/-- Resolution of the positional argument to the list of backends:
"all" expands to the canonical order sqlite, postgresql, mysql. -/
def resolveDbs : DbChoice → List Db
  | DbChoice.all => [Db.sqlite, Db.postgresql, Db.mysql]
  | DbChoice.sqlite => [Db.sqlite]
  | DbChoice.postgresql => [Db.postgresql]
  | DbChoice.mysql => [Db.mysql]

/-- Fresh process state over a given oracle. -/
def initWorld (o : Oracle) (writable : Bool) : World :=
  { oracle := o, calls := 0, trace := [], writable := writable }

/-- The provisioning core of main (the success accumulation loop; banner
printing, create_env_file and the exit-code mapping are plain I/O outside
the core).  Starts from success = True over the resolved backend list. -/
def provisionAll (choice : DbChoice) (darwin test replica : Bool)
    (o : Oracle) (writable : Bool) : Bool × World × List RunEntry :=
  mainLoop darwin test replica (resolveDbs choice) true (initWorld o writable)

/-- The contribution of one loop iteration to the success accumulator:
the provisioner result ANDed with the verification result when it ran. -/
def entryOk (e : RunEntry) : Bool := e.provOk && e.verify.getD true

lemma mainLoop_cons (d t r : Bool) (db : Db) (rest : List Db) (acc : Bool) (w : World) :
    ∃ (e0 : RunEntry) (w1 : World),
      mainLoop d t r (db :: rest) acc w =
        ((mainLoop d t r rest (acc && entryOk e0) w1).1,
         (mainLoop d t r rest (acc && entryOk e0) w1).2.1,
         e0 :: (mainLoop d t r rest (acc && entryOk e0) w1).2.2) ∧
      e0.db = db ∧
      e0.provOk = (provisionOne d r db w).1 ∧
      (∀ v, e0.verify = some v → t = true ∧ e0.provOk = true) ∧
      (acc = false → e0.verify = none) := by
  by_cases ht : (t && (acc && (provisionOne d r db w).1)) = true
  · have ht3 : t = true ∧ acc = true ∧ (provisionOne d r db w).1 = true := by
      simpa [Bool.and_eq_true] using ht
    by_cases htc : (test_connection db (provisionOne d r db w).2).1 = true
    · refine ⟨{ db := db, provOk := (provisionOne d r db w).1, verify := some true },
        (test_connection db (provisionOne d r db w).2).2, ?_, rfl, rfl, ?_, ?_⟩
      · simp only [mainLoop]
        rw [if_pos ht, if_pos htc, htc]
        simp [entryOk]
      · intro v _
        exact ⟨ht3.1, ht3.2.2⟩
      · intro hacc
        rw [hacc] at ht3
        exact absurd ht3.2.1 (by simp)
    · refine ⟨{ db := db, provOk := (provisionOne d r db w).1, verify := some false },
        (test_connection db (provisionOne d r db w).2).2, ?_, rfl, rfl, ?_, ?_⟩
      · have hfc : (test_connection db (provisionOne d r db w).2).1 = false := by
          rw [Bool.not_eq_true] at htc
          exact htc
        simp only [mainLoop]
        rw [if_pos ht, if_neg htc, hfc]
        simp [entryOk]
      · intro v _
        exact ⟨ht3.1, ht3.2.2⟩
      · intro hacc
        rw [hacc] at ht3
        exact absurd ht3.2.1 (by simp)
  · refine ⟨{ db := db, provOk := (provisionOne d r db w).1, verify := none },
      (provisionOne d r db w).2, ?_, rfl, rfl, ?_, ?_⟩
    · simp only [mainLoop]
      rw [if_neg ht]
      simp [entryOk]
    · intro v hv
      exact absurd hv (by simp)
    · intro _
      rfl

lemma mainLoop_final (d t r : Bool) (dbs : List Db) :
    ∀ (acc : Bool) (w : World),
      (mainLoop d t r dbs acc w).1 =
        (acc && ((mainLoop d t r dbs acc w).2.2.all entryOk)) := by
  induction dbs with
  | nil => intro acc w; simp [mainLoop]
  | cons db rest ih =>
    intro acc w
    obtain ⟨e0, w1, heq, -, -, -, -⟩ := mainLoop_cons d t r db rest acc w
    rw [heq]
    simp only [List.all_cons]
    rw [ih (acc && entryOk e0) w1, Bool.and_assoc]

lemma mainLoop_map_db (d t r : Bool) (dbs : List Db) :
    ∀ (acc : Bool) (w : World),
      ((mainLoop d t r dbs acc w).2.2.map RunEntry.db) = dbs := by
  induction dbs with
  | nil => intro acc w; simp [mainLoop]
  | cons db rest ih =>
    intro acc w
    obtain ⟨e0, w1, heq, hdb, -, -, -⟩ := mainLoop_cons d t r db rest acc w
    rw [heq]
    simp [ih, hdb]

lemma mainLoop_verify_gate (d t r : Bool) (dbs : List Db) :
    ∀ (acc : Bool) (w : World) (e : RunEntry),
      e ∈ (mainLoop d t r dbs acc w).2.2 → ∀ v, e.verify = some v →
        t = true ∧ e.provOk = true := by
  induction dbs with
  | nil => intro acc w e he; simp [mainLoop] at he
  | cons db rest ih =>
    intro acc w e he v hv
    obtain ⟨e0, w1, heq, -, -, hgate, -⟩ := mainLoop_cons d t r db rest acc w
    rw [heq] at he
    simp only [List.mem_cons] at he
    rcases he with rfl | he
    · exact hgate v hv
    · exact ih _ _ e he v hv

lemma mainLoop_acc_false (d t r : Bool) (dbs : List Db) :
    ∀ (w : World) (e : RunEntry),
      e ∈ (mainLoop d t r dbs false w).2.2 → e.verify = none := by
  induction dbs with
  | nil => intro w e he; simp [mainLoop] at he
  | cons db rest ih =>
    intro w e he
    obtain ⟨e0, w1, heq, -, -, -, hnone⟩ := mainLoop_cons d t r db rest false w
    rw [heq] at he
    simp only [List.mem_cons] at he
    rcases he with rfl | he
    · exact hnone rfl
    · rw [Bool.false_and] at he
      exact ih w1 e he

lemma mainLoop_after_bad (d t r : Bool) (dbs : List Db) :
    ∀ (acc : Bool) (w : World) (pre : List RunEntry) (e : RunEntry) (post : List RunEntry),
      (mainLoop d t r dbs acc w).2.2 = pre ++ e :: post →
      entryOk e = false → ∀ e2 ∈ post, e2.verify = none := by
  induction dbs with
  | nil =>
    intro acc w pre e post hsplit
    rw [show (mainLoop d t r [] acc w) = (acc, w, []) from rfl] at hsplit
    exact absurd hsplit.symm (List.append_ne_nil_of_right_ne_nil pre (by simp))
  | cons db rest ih =>
    intro acc w pre e post hsplit hbad e2 he2
    obtain ⟨e0, w1, heq, -, -, -, -⟩ := mainLoop_cons d t r db rest acc w
    rw [heq] at hsplit
    cases pre with
    | nil =>
      simp only [List.nil_append, List.cons.injEq] at hsplit
      obtain ⟨rfl, hrest⟩ := hsplit
      have hf : (acc && entryOk e0) = false := by rw [hbad, Bool.and_false]
      rw [hf] at hrest
      exact mainLoop_acc_false d t r rest w1 e2 (hrest ▸ he2)
    | cons p pre2 =>
      simp only [List.cons_append, List.cons.injEq] at hsplit
      exact ih _ _ pre2 e post hsplit.2 hbad e2 he2

lemma entryOk_iff (e : RunEntry) :
    entryOk e = true ↔ (e.provOk = true ∧ ∀ v, e.verify = some v → v = true) := by
  obtain ⟨db, p, ver⟩ := e
  cases ver with
  | none => simp [entryOk]
  | some v => cases v <;> simp [entryOk]

/-- An oracle on which every external command succeeds with empty output. -/
def okOracle : Oracle := fun _ _ => { exitCode := 0, stdout := "" }

/-- An oracle on which every external command exits with status 1. -/
def failOracle : Oracle := fun _ _ => { exitCode := 1, stdout := "" }

/-- C1: the final success flag of the provisioning loop is true iff every
requested backend's provisioner returned success and every verification
that was actually invoked returned true; in particular a verification
failure (recorded as verify = some false) forces the overall result to
false even when that backend's provisioning succeeded. -/
theorem overall_success_iff (choice : DbChoice) (d t r : Bool) (o : Oracle) (wr : Bool) :
    (provisionAll choice d t r o wr).1 = true ↔
      ∀ e ∈ (provisionAll choice d t r o wr).2.2,
        e.provOk = true ∧ ∀ v, e.verify = some v → v = true := by
  unfold provisionAll
  rw [mainLoop_final]
  simp only [Bool.true_and, List.all_eq_true]
  constructor
  · intro h e he
    exact (entryOk_iff e).mp (h e he)
  · intro h e he
    exact (entryOk_iff e).mpr (h e he)

theorem overall_success_iff_witness :
    (provisionAll DbChoice.all false true false failOracle true).1 = true ↔
      ∀ e ∈ (provisionAll DbChoice.all false true false failOracle true).2.2,
        e.provOk = true ∧ ∀ v, e.verify = some v → v = true :=
  overall_success_iff DbChoice.all false true false failOracle true

/-- C4: test_connection is invoked for a backend only when the --test flag
is set and that backend's own provisioning reported success; in particular
it is never invoked for a backend whose provisioning failed. -/
theorem verify_gating (choice : DbChoice) (d t r : Bool) (o : Oracle) (wr : Bool)
    (e : RunEntry) (he : e ∈ (provisionAll choice d t r o wr).2.2)
    (v : Bool) (hv : e.verify = some v) : t = true ∧ e.provOk = true :=
  mainLoop_verify_gate d t r (resolveDbs choice) true (initWorld o wr) e he v hv

theorem verify_gating_witness :
    ({ db := Db.sqlite, provOk := true, verify := some true } ∈
      (provisionAll DbChoice.all false true false okOracle true).2.2) ∧
    (true = true ∧
      ({ db := Db.sqlite, provOk := true, verify := some true } : RunEntry).provOk = true) :=
  ⟨by decide,
   verify_gating DbChoice.all false true false okOracle true
     { db := Db.sqlite, provOk := true, verify := some true } (by decide) true rfl⟩

/-- C5: a failure inside one backend's provisioning never aborts the whole
run: every requested backend receives exactly one provisioner invocation in
order regardless of any command failures (first conjunct), and a backend
whose provisioner reported failure is recorded as failed, forcing the
overall result to false (second conjunct).  Note that every provisioning
command in the script is issued with check=False, so no command failure
can raise past a provisioner. -/
theorem failure_isolation (choice : DbChoice) (d t r : Bool) (o : Oracle) (wr : Bool) :
    ((provisionAll choice d t r o wr).2.2.map RunEntry.db = resolveDbs choice) ∧
    (∀ e ∈ (provisionAll choice d t r o wr).2.2, e.provOk = false →
      (provisionAll choice d t r o wr).1 = false) := by
  constructor
  · exact mainLoop_map_db d t r (resolveDbs choice) true (initWorld o wr)
  · intro e he hp
    unfold provisionAll at *
    rw [mainLoop_final]
    simp only [Bool.true_and]
    cases hall : ((mainLoop d t r (resolveDbs choice) true (initWorld o wr)).2.2.all entryOk) with
    | false => rfl
    | true => exact absurd (List.all_eq_true.mp hall e he) (by simp [entryOk, hp])

theorem failure_isolation_witness :
    (({ db := Db.postgresql, provOk := false, verify := none } : RunEntry) ∈
      (provisionAll DbChoice.all false true false failOracle true).2.2 ∧
      ({ db := Db.postgresql, provOk := false, verify := none } : RunEntry).provOk = false) ∧
    ((provisionAll DbChoice.all false true false failOracle true).2.2.map RunEntry.db =
        resolveDbs DbChoice.all ∧
      (provisionAll DbChoice.all false true false failOracle true).1 = false) :=
  ⟨⟨by decide, rfl⟩,
   (failure_isolation DbChoice.all false true false failOracle true).1,
   (failure_isolation DbChoice.all false true false failOracle true).2
     { db := Db.postgresql, provOk := false, verify := none } (by decide) rfl⟩

/-- C6: the positional argument "all" resolves to the canonical backend
order sqlite, postgresql, mysql, and the loop produces exactly one
provisioner invocation (one run entry) per backend in that order. -/
theorem all_canonical_order (d : Bool) (o : Oracle) (wr : Bool) :
    ((provisionAll DbChoice.all d false false o wr).2.2.map RunEntry.db) =
      [Db.sqlite, Db.postgresql, Db.mysql] :=
  mainLoop_map_db d false false [Db.sqlite, Db.postgresql, Db.mysql] true (initWorld o wr)

lemma replica_eq (d : Bool) (w : World) :
    setup_postgresql_replica d w = setup_postgresql d w := by
  unfold setup_postgresql_replica
  cases h : (setup_postgresql d w).1 with
  | false => simp [h, Prod.ext_iff]
  | true => simp [h, Prod.ext_iff]

/-- C8: the replica variant runs the base PostgreSQL provisioner and then
only prints guidance, so its result coincides with the base result on every
world, and at the orchestrator level the --replica run of the postgresql
backend succeeds exactly when the base run does. -/
theorem replica_inherits_base (d : Bool) (w : World) (o : Oracle) (wr : Bool) :
    ((setup_postgresql_replica d w).1 = (setup_postgresql d w).1) ∧
    ((provisionAll DbChoice.postgresql d false true o wr).1 =
      (provisionAll DbChoice.postgresql d false false o wr).1) := by
  constructor
  · rw [replica_eq]
  · simp [provisionAll, mainLoop, provisionOne, resolveDbs, replica_eq]

/-- C10: the verification gate tests the global success accumulator, so
after any entry with a failed contribution (failed provisioning or failed
verification), no later backend is verified at all — its verify field is
none even when its own provisioning succeeded. -/
theorem verify_gate_global_accumulator (choice : DbChoice) (d t r : Bool) (o : Oracle)
    (wr : Bool) (pre : List RunEntry) (e : RunEntry) (post : List RunEntry)
    (hsplit : (provisionAll choice d t r o wr).2.2 = pre ++ e :: post)
    (hbad : entryOk e = false) :
    ∀ e2 ∈ post, e2.verify = none :=
  mainLoop_after_bad d t r (resolveDbs choice) true (initWorld o wr) pre e post hsplit hbad

theorem verify_gate_global_accumulator_witness :
    ((provisionAll DbChoice.all false true false failOracle true).2.2 =
      [{ db := Db.sqlite, provOk := true, verify := some true }] ++
        { db := Db.postgresql, provOk := false, verify := none } ::
          [{ db := Db.mysql, provOk := false, verify := none }] ∧
      entryOk { db := Db.postgresql, provOk := false, verify := none } = false) ∧
    (∀ e2 ∈ [({ db := Db.mysql, provOk := false, verify := none } : RunEntry)],
      e2.verify = none) :=
  ⟨⟨by decide, rfl⟩,
   verify_gate_global_accumulator DbChoice.all false true false failOracle true
     [{ db := Db.sqlite, provOk := true, verify := some true }]
     { db := Db.postgresql, provOk := false, verify := none }
     [{ db := Db.mysql, provOk := false, verify := none }] (by decide) rfl⟩

/-- C9: with check=False (tolerated failure) a non-zero exit never raises:
capture_output=True returns the stripped stdout text, and otherwise the
boolean success flag, which is false on a non-zero exit. -/
theorem run_command_tolerant (out : CmdOutcome) :
    (run_command out false true = Except.ok (RunRet.captured out.stdout.trim)) ∧
    (out.exitCode ≠ 0 → run_command out false false = Except.ok (RunRet.flag false)) ∧
    (∀ b : Bool, ∃ ret, run_command out false b = Except.ok ret) := by
  refine ⟨rfl, ?_, ?_⟩
  · intro h
    simp [run_command, h]
  · intro b
    cases b with
    | false => exact ⟨RunRet.flag (out.exitCode == 0), rfl⟩
    | true => exact ⟨RunRet.captured out.stdout.trim, rfl⟩

theorem run_command_tolerant_witness :
    ((1 : Nat) ≠ 0) ∧
    (run_command { exitCode := 1, stdout := "  hi  " } false false =
      Except.ok (RunRet.flag false)) ∧
    (run_command { exitCode := 1, stdout := "  hi  " } false true =
      Except.ok (RunRet.captured ("  hi  ".trim))) :=
  ⟨by decide,
   (run_command_tolerant { exitCode := 1, stdout := "  hi  " }).2.1 (by decide),
   (run_command_tolerant { exitCode := 1, stdout := "  hi  " }).1⟩

/-- Number of invocations of a given command recorded in a trace. -/
def runCount (cmd : String) (t : List Event) : Nat :=
  t.countP (fun e => match e with | Event.run c _ => c == cmd | _ => false)

/-- Number of sleeps recorded in a trace. -/
def sleepCount (t : List Event) : Nat :=
  t.countP (fun e => match e with | Event.sleep _ => true | _ => false)

lemma runCount_append (cmd : String) (t1 t2 : List Event) :
    runCount cmd (t1 ++ t2) = runCount cmd t1 + runCount cmd t2 :=
  List.countP_append _ _ _

lemma sleepCount_append (t1 t2 : List Event) :
    sleepCount (t1 ++ t2) = sleepCount t1 + sleepCount t2 :=
  List.countP_append _ _ _

lemma runCount_run_self (cmd : String) (out : CmdOutcome) :
    runCount cmd [Event.run cmd out] = 1 := by
  simp [runCount, List.countP_cons]

lemma runCount_sleep (cmd : String) (s : Nat) : runCount cmd [Event.sleep s] = 0 := by
  simp [runCount, List.countP_cons]

lemma sleepCount_run (cmd : String) (out : CmdOutcome) :
    sleepCount [Event.run cmd out] = 0 := by
  simp [sleepCount, List.countP_cons]

lemma sleepCount_sleep (s : Nat) : sleepCount [Event.sleep s] = 1 := by
  simp [sleepCount, List.countP_cons]

/-- When the probe fails at every oracle index, the wait loop exhausts its
n iterations, returning false, having probed n times and slept n times. -/
lemma waitLoop_fail_counts (c : String) :
    ∀ (n : Nat) (w : World), (∀ k, (w.oracle k c).exitCode ≠ 0) →
      (waitLoop c n w).1 = false ∧
      runCount c (waitLoop c n w).2.trace = runCount c w.trace + n ∧
      sleepCount (waitLoop c n w).2.trace = sleepCount w.trace + n := by
  intro n
  induction n with
  | zero => intro w _; exact ⟨rfl, rfl, rfl⟩
  | succ m ih =>
    intro w h
    have hcond : ¬(((w.oracle w.calls c).exitCode == 0) = true) := by
      simp [h w.calls]
    have hstep := ih (sleep1 ((runCmd c w).2)) (fun k => h k)
    simp only [runCmd, sleep1] at hstep
    simp only [waitLoop, runCmd]
    rw [if_neg hcond]
    simp only [sleep1]
    refine ⟨hstep.1, ?_, ?_⟩
    · rw [hstep.2.1, runCount_append, runCount_append, runCount_run_self, runCount_sleep]
      omega
    · rw [hstep.2.2, sleepCount_append, sleepCount_append, sleepCount_run, sleepCount_sleep]
      omega

lemma setup_pg_timeout (d : Bool) (o : Oracle) (wr : Bool)
    (hprobe : ∀ k, (o k pgProbeCmd).exitCode ≠ 0)
    (hwhich : (o 0 whichPsqlCmd).exitCode = 0) :
    (setup_postgresql d (initWorld o wr)).1 = false := by
  have h1 : ((o 0 whichPsqlCmd).exitCode == 0) = true := by simp [hwhich]
  have h2 : ((o 1 pgProbeCmd).exitCode == 0) = false := by simp [hprobe 1]
  have h3 : ∀ (cl : Nat) (tr : List Event) (wb : Bool),
      (waitLoop pgProbeCmd 30
        { oracle := o, calls := cl, trace := tr, writable := wb }).1 = false :=
    fun cl tr wb =>
      (waitLoop_fail_counts pgProbeCmd 30 _ (fun k => hprobe k)).1
  cases d <;> simp [setup_postgresql, runCmd, initWorld, h1, h2, h3]

lemma setup_mysql_timeout (d : Bool) (o : Oracle) (wr : Bool)
    (hprobe : ∀ k, (o k mysqlProbeCmd).exitCode ≠ 0)
    (hwhich : (o 0 whichMysqlCmd).exitCode = 0) :
    (setup_mysql d (initWorld o wr)).1 = false := by
  have h1 : ((o 0 whichMysqlCmd).exitCode == 0) = true := by simp [hwhich]
  have h2 : ((o 1 mysqlProbeCmd).exitCode == 0) = false := by simp [hprobe 1]
  have h3 : ∀ (cl : Nat) (tr : List Event) (wb : Bool),
      (waitLoop mysqlProbeCmd 30
        { oracle := o, calls := cl, trace := tr, writable := wb }).1 = false :=
    fun cl tr wb =>
      (waitLoop_fail_counts mysqlProbeCmd 30 _ (fun k => hprobe k)).1
  cases d <;> simp [setup_mysql, runCmd, initWorld, h1, h2, h3]

/-- C2: when the readiness probe fails on every invocation, the retry loop
(the Readiness Poller of the spec; the script issues one further probe
inside ensure-running before delegating to it) invokes the probe exactly 30
times, sleeps 1 second after each failed attempt, and reports failure, and
the whole provisioner returns false (StartupTimeout), for PostgreSQL and
MySQL alike. -/
theorem poller_timeout_thirty_probes (o : Oracle) (wr : Bool) (d : Bool) :
    (∀ w : World, (∀ k, (w.oracle k pgProbeCmd).exitCode ≠ 0) →
      (waitLoop pgProbeCmd 30 w).1 = false ∧
      runCount pgProbeCmd (waitLoop pgProbeCmd 30 w).2.trace =
        runCount pgProbeCmd w.trace + 30 ∧
      sleepCount (waitLoop pgProbeCmd 30 w).2.trace = sleepCount w.trace + 30) ∧
    ((∀ k, (o k pgProbeCmd).exitCode ≠ 0) → (o 0 whichPsqlCmd).exitCode = 0 →
      (setup_postgresql d (initWorld o wr)).1 = false ∧
      (provisionAll DbChoice.postgresql d false false o wr).1 = false) ∧
    (∀ w : World, (∀ k, (w.oracle k mysqlProbeCmd).exitCode ≠ 0) →
      (waitLoop mysqlProbeCmd 30 w).1 = false ∧
      runCount mysqlProbeCmd (waitLoop mysqlProbeCmd 30 w).2.trace =
        runCount mysqlProbeCmd w.trace + 30 ∧
      sleepCount (waitLoop mysqlProbeCmd 30 w).2.trace = sleepCount w.trace + 30) ∧
    ((∀ k, (o k mysqlProbeCmd).exitCode ≠ 0) → (o 0 whichMysqlCmd).exitCode = 0 →
      (setup_mysql d (initWorld o wr)).1 = false ∧
      (provisionAll DbChoice.mysql d false false o wr).1 = false) := by
  refine ⟨fun w h => waitLoop_fail_counts pgProbeCmd 30 w h, ?_,
    fun w h => waitLoop_fail_counts mysqlProbeCmd 30 w h, ?_⟩
  · intro hprobe hwhich
    refine ⟨setup_pg_timeout d o wr hprobe hwhich, ?_⟩
    simp [provisionAll, mainLoop, provisionOne, resolveDbs,
      setup_pg_timeout d o wr hprobe hwhich]
  · intro hprobe hwhich
    refine ⟨setup_mysql_timeout d o wr hprobe hwhich, ?_⟩
    simp [provisionAll, mainLoop, provisionOne, resolveDbs,
      setup_mysql_timeout d o wr hprobe hwhich]

/-- Oracle on which only the installer-presence checks succeed: both
services are installed but never become ready. -/
def installedOnlyOracle : Oracle := fun _ c =>
  if c == whichPsqlCmd || c == whichMysqlCmd then { exitCode := 0, stdout := "" }
  else { exitCode := 1, stdout := "" }

theorem poller_timeout_thirty_probes_witness :
    ((∀ k, ((initWorld installedOnlyOracle true).oracle k pgProbeCmd).exitCode ≠ 0) ∧
      (waitLoop pgProbeCmd 30 (initWorld installedOnlyOracle true)).1 = false ∧
      runCount pgProbeCmd
          (waitLoop pgProbeCmd 30 (initWorld installedOnlyOracle true)).2.trace =
        runCount pgProbeCmd (initWorld installedOnlyOracle true).trace + 30 ∧
      sleepCount (waitLoop pgProbeCmd 30 (initWorld installedOnlyOracle true)).2.trace =
        sleepCount (initWorld installedOnlyOracle true).trace + 30) ∧
    ((installedOnlyOracle 0 whichPsqlCmd).exitCode = 0 ∧
      (setup_postgresql false (initWorld installedOnlyOracle true)).1 = false ∧
      (provisionAll DbChoice.postgresql false false false installedOnlyOracle true).1 =
        false) := by
  have hpg : ∀ k, (installedOnlyOracle k pgProbeCmd).exitCode ≠ 0 := fun _ => Nat.one_ne_zero
  have hw : (installedOnlyOracle 0 whichPsqlCmd).exitCode = 0 := by decide
  exact ⟨⟨hpg, (poller_timeout_thirty_probes installedOnlyOracle true false).1
      (initWorld installedOnlyOracle true) hpg⟩,
    hw, (poller_timeout_thirty_probes installedOnlyOracle true false).2.1 hpg hw⟩

lemma setup_pg_ready (d : Bool) (w : World)
    (hwhich : ∀ k, (w.oracle k whichPsqlCmd).exitCode = 0)
    (hprobe : ∀ k, (w.oracle k pgProbeCmd).exitCode = 0) :
    (setup_postgresql d w).1 = true ∧ (setup_postgresql d w).2.oracle = w.oracle := by
  have h1 : ((w.oracle w.calls whichPsqlCmd).exitCode == 0) = true := by
    simp [hwhich]
  have h2 : ((w.oracle (w.calls + 1) pgProbeCmd).exitCode == 0) = true := by
    simp [hprobe]
  simp [setup_postgresql, runCmd, h1, h2, pgCreateResources]

lemma setup_mysql_ready (d : Bool) (w : World)
    (hwhich : ∀ k, (w.oracle k whichMysqlCmd).exitCode = 0)
    (hprobe : ∀ k, (w.oracle k mysqlProbeCmd).exitCode = 0) :
    (setup_mysql d w).1 = true ∧ (setup_mysql d w).2.oracle = w.oracle := by
  have h1 : ((w.oracle w.calls whichMysqlCmd).exitCode == 0) = true := by
    simp [hwhich]
  have h2 : ((w.oracle (w.calls + 1) mysqlProbeCmd).exitCode == 0) = true := by
    simp [hprobe]
  simp [setup_mysql, runCmd, h1, h2, mysqlCreateResources, mysql_commands]

/-- C7: the resource-creation commands are all issued with check=False and
their results are discarded, so even when every create/user/grant statement
reports failure (the already-exists situation) at every invocation, a
client-server provisioner reports success, and running it a second time in
succession still reports success. -/
theorem creation_idempotent_success (d : Bool) (o : Oracle) (wr : Bool)
    (hwhichP : ∀ k, (o k whichPsqlCmd).exitCode = 0)
    (hprobeP : ∀ k, (o k pgProbeCmd).exitCode = 0)
    (hcu : ∀ k, (o k createUserCmd).exitCode ≠ 0)
    (hcd : ∀ k, (o k createDbCmd).exitCode ≠ 0)
    (hal : ∀ k, (o k alterPwCmd).exitCode ≠ 0)
    (hwhichM : ∀ k, (o k whichMysqlCmd).exitCode = 0)
    (hprobeM : ∀ k, (o k mysqlProbeCmd).exitCode = 0)
    (hmy : ∀ k c, c ∈ mysql_commands → (o k (mysqlExec c)).exitCode ≠ 0) :
    (setup_postgresql d (initWorld o wr)).1 = true ∧
    (setup_postgresql d (setup_postgresql d (initWorld o wr)).2).1 = true ∧
    (setup_mysql d (initWorld o wr)).1 = true ∧
    (setup_mysql d (setup_mysql d (initWorld o wr)).2).1 = true := by
  have hb := setup_pg_ready d (initWorld o wr) (fun k => hwhichP k) (fun k => hprobeP k)
  have hb2 := setup_pg_ready d (setup_postgresql d (initWorld o wr)).2
    (fun k => by rw [hb.2]; exact hwhichP k)
    (fun k => by rw [hb.2]; exact hprobeP k)
  have hm := setup_mysql_ready d (initWorld o wr) (fun k => hwhichM k) (fun k => hprobeM k)
  have hm2 := setup_mysql_ready d (setup_mysql d (initWorld o wr)).2
    (fun k => by rw [hm.2]; exact hwhichM k)
    (fun k => by rw [hm.2]; exact hprobeM k)
  exact ⟨hb.1, hb2.1, hm.1, hm2.1⟩

/-- Oracle on which installer checks and readiness probes succeed while
every other command (in particular all resource creation) fails. -/
def installedReadyOracle : Oracle := fun _ c =>
  if c == whichPsqlCmd || c == pgProbeCmd || c == whichMysqlCmd || c == mysqlProbeCmd
  then { exitCode := 0, stdout := "" } else { exitCode := 1, stdout := "" }

theorem creation_idempotent_success_witness :
    (∀ k, (installedReadyOracle k createUserCmd).exitCode ≠ 0) ∧
    (∀ k c, c ∈ mysql_commands → (installedReadyOracle k (mysqlExec c)).exitCode ≠ 0) ∧
    ((setup_postgresql false (initWorld installedReadyOracle true)).1 = true ∧
      (setup_postgresql false
        (setup_postgresql false (initWorld installedReadyOracle true)).2).1 = true ∧
      (setup_mysql false (initWorld installedReadyOracle true)).1 = true ∧
      (setup_mysql false
        (setup_mysql false (initWorld installedReadyOracle true)).2).1 = true) := by
  have hcu : ∀ k, (installedReadyOracle k createUserCmd).exitCode ≠ 0 :=
    fun _ => Nat.one_ne_zero
  have hmy : ∀ k c, c ∈ mysql_commands →
      (installedReadyOracle k (mysqlExec c)).exitCode ≠ 0 := by
    intro k c hc
    simp only [mysql_commands, List.mem_cons, List.not_mem_nil, or_false] at hc
    rcases hc with rfl | rfl | rfl | rfl <;> exact Nat.one_ne_zero
  exact ⟨hcu, hmy,
    creation_idempotent_success false installedReadyOracle true
      (fun _ => rfl) (fun _ => rfl) hcu (fun _ => Nat.one_ne_zero)
      (fun _ => Nat.one_ne_zero) (fun _ => rfl) (fun _ => rfl) hmy⟩

/-- Is this event one of the resource-creation commands of the backend? -/
def isCreationOf (db : Db) (e : Event) : Bool :=
  match db, e with
  | Db.postgresql, Event.run c _ =>
    c == createUserCmd || c == createDbCmd || c == alterPwCmd
  | Db.mysql, Event.run c _ => (mysql_commands.map mysqlExec).contains c
  | _, _ => false

/-- Is this event a successful readiness probe of the backend? -/
def isProbeTrueOf (db : Db) (e : Event) : Bool :=
  match db, e with
  | Db.postgresql, Event.run c out => c == pgProbeCmd && out.exitCode == 0
  | Db.mysql, Event.run c out => c == mysqlProbeCmd && out.exitCode == 0
  | _, _ => false

/-- Temporal precedence on traces: every prefix containing a P event already
contains a Q event; equivalently, some Q event strictly precedes the first
P event (P and Q never hold of the same event here). -/
def Guarded (P Q : Event → Bool) (t : List Event) : Prop :=
  ∀ k, (∃ e ∈ t.take k, P e = true) → ∃ e ∈ t.take k, Q e = true

lemma guarded_append {P Q : Event → Bool} {t1 t2 : List Event}
    (h1 : Guarded P Q t1) (h2 : Guarded P Q t2) : Guarded P Q (t1 ++ t2) := by
  intro k hk
  obtain ⟨e, he, hP⟩ := hk
  rw [List.take_append_eq_append_take] at he ⊢
  rcases List.mem_append.mp he with h | h
  · obtain ⟨e2, he2, hQ⟩ := h1 k ⟨e, h, hP⟩
    exact ⟨e2, List.mem_append.mpr (Or.inl he2), hQ⟩
  · obtain ⟨e2, he2, hQ⟩ := h2 (k - t1.length) ⟨e, h, hP⟩
    exact ⟨e2, List.mem_append.mpr (Or.inr he2), hQ⟩

lemma guarded_of_none {P Q : Event → Bool} {t : List Event}
    (h : ∀ e ∈ t, P e = false) : Guarded P Q t := by
  intro k hk
  obtain ⟨e, he, hP⟩ := hk
  rw [h e (List.take_subset k t he)] at hP
  exact absurd hP (by simp)

lemma guarded_front_wit {P Q : Event → Bool} {t1 t2 : List Event}
    (hnone : ∀ e ∈ t1, P e = false) (hwit : ∃ e ∈ t1, Q e = true) :
    Guarded P Q (t1 ++ t2) := by
  intro k hk
  obtain ⟨e, he, hP⟩ := hk
  rw [List.take_append_eq_append_take] at he ⊢
  rcases List.mem_append.mp he with h | h
  · rw [hnone e (List.take_subset k t1 h)] at hP
    exact absurd hP (by simp)
  · have hk2 : t1.length < k := by
      by_contra hle
      push_neg at hle
      rw [Nat.sub_eq_zero_of_le hle] at h
      simp at h
    obtain ⟨e2, he2, hQ⟩ := hwit
    refine ⟨e2, List.mem_append.mpr (Or.inl ?_), hQ⟩
    rw [List.take_of_length_le (Nat.le_of_lt hk2)]
    exact he2

lemma isCreationOf_run_false (db : Db) (c : String) (out : CmdOutcome)
    (h : (c == createUserCmd || c == createDbCmd || c == alterPwCmd ||
          (mysql_commands.map mysqlExec).contains c) = false) :
    isCreationOf db (Event.run c out) = false := by
  simp only [Bool.or_eq_false_iff] at h
  cases db with
  | sqlite => rfl
  | postgresql =>
    simp only [isCreationOf, Bool.or_eq_false_iff]
    exact ⟨⟨h.1.1.1, h.1.1.2⟩, h.1.2⟩
  | mysql =>
    simp only [isCreationOf]
    exact h.2

lemma isCreationOf_sleep (db : Db) (s : Nat) :
    isCreationOf db (Event.sleep s) = false := by
  cases db <;> rfl

lemma isCreationOf_mkdirs (db : Db) (p : String) :
    isCreationOf db (Event.mkdirs p) = false := by
  cases db <;> rfl

lemma waitLoop_trace (c : String) :
    ∀ (n : Nat) (w : World), ∃ tail,
      (waitLoop c n w).2.trace = w.trace ++ tail ∧
      (∀ e ∈ tail, (∃ out, e = Event.run c out) ∨ ∃ s, e = Event.sleep s) ∧
      ((waitLoop c n w).1 = true →
        ∃ out, Event.run c out ∈ tail ∧ out.exitCode = 0) := by
  intro n
  induction n with
  | zero =>
    intro w
    refine ⟨[], by simp [waitLoop], by simp, ?_⟩
    intro h
    exact absurd h (by simp [waitLoop])
  | succ m ih =>
    intro w
    have hunf : waitLoop c (m + 1) w =
        (if (runCmd c w).1 = true then (true, (runCmd c w).2)
         else waitLoop c m (sleep1 (runCmd c w).2)) := rfl
    by_cases hc : ((runCmd c w).1 = true)
    · refine ⟨[Event.run c (w.oracle w.calls c)], ?_, ?_, ?_⟩
      · rw [hunf, if_pos hc]
        rfl
      · intro e he
        simp only [List.mem_singleton] at he
        exact Or.inl ⟨_, he⟩
      · intro _
        refine ⟨w.oracle w.calls c, by simp, ?_⟩
        have h2 : ((w.oracle w.calls c).exitCode == 0) = true := hc
        simpa using h2
    · obtain ⟨tail2, ht2, hm2, hw2⟩ := ih (sleep1 ((runCmd c w).2))
      refine ⟨Event.run c (w.oracle w.calls c) :: Event.sleep 1 :: tail2, ?_, ?_, ?_⟩
      · rw [hunf, if_neg hc, ht2]
        simp [sleep1, runCmd]
      · intro e he
        simp only [List.mem_cons] at he
        rcases he with rfl | rfl | he3
        · exact Or.inl ⟨_, rfl⟩
        · exact Or.inr ⟨1, rfl⟩
        · exact hm2 e he3
      · intro htrue
        rw [hunf, if_neg hc] at htrue
        obtain ⟨out, hmem, hex⟩ := hw2 htrue
        exact ⟨out, List.mem_cons_of_mem _ (List.mem_cons_of_mem _ hmem), hex⟩

lemma isCreationOf_sqlite (e : Event) : isCreationOf Db.sqlite e = false := by
  cases e <;> rfl

lemma isCreationOf_mysql_run_false (c : String) (out : CmdOutcome)
    (h : ((mysql_commands.map mysqlExec).contains c) = false) :
    isCreationOf Db.mysql (Event.run c out) = false := by
  simp only [isCreationOf]
  exact h

lemma isCreationOf_pg_run_false (c : String) (out : CmdOutcome)
    (h : (c == createUserCmd || c == createDbCmd || c == alterPwCmd) = false) :
    isCreationOf Db.postgresql (Event.run c out) = false := by
  simp only [isCreationOf]
  exact h

lemma creation_false_of_shape {db : Db} {probe : String} {tail : List Event}
    (hm : ∀ e ∈ tail, (∃ out, e = Event.run probe out) ∨ ∃ s, e = Event.sleep s)
    (hp : (probe == createUserCmd || probe == createDbCmd || probe == alterPwCmd ||
          (mysql_commands.map mysqlExec).contains probe) = false) :
    ∀ e ∈ tail, isCreationOf db e = false := by
  intro e he
  rcases hm e he with ⟨out, rfl⟩ | ⟨s, rfl⟩
  · exact isCreationOf_run_false db probe out hp
  · exact isCreationOf_sleep db s

lemma forall_false_append {P : Event → Bool} {t1 t2 : List Event}
    (h1 : ∀ e ∈ t1, P e = false) (h2 : ∀ e ∈ t2, P e = false) :
    ∀ e ∈ t1 ++ t2, P e = false := by
  intro e he
  rcases List.mem_append.mp he with h | h
  · exact h1 e h
  · exact h2 e h

lemma pgCreate_trace (w : World) :
    ∃ u1 u2 u3, (pgCreateResources w).trace =
      w.trace ++ [Event.run createUserCmd u1, Event.run createDbCmd u2,
        Event.run alterPwCmd u3] :=
  ⟨w.oracle w.calls createUserCmd, w.oracle (w.calls + 1) createDbCmd,
    w.oracle (w.calls + 2) alterPwCmd, by simp [pgCreateResources, runCmd]⟩

lemma mysqlCreate_trace (w : World) :
    ∃ u1 u2 u3 u4, (mysqlCreateResources w).trace =
      w.trace ++
        [Event.run (mysqlExec "CREATE DATABASE IF NOT EXISTS dungeongate_mysql_test;") u1,
         Event.run (mysqlExec "CREATE USER IF NOT EXISTS \x27dungeongate_mysql\x27@\x27localhost\x27 IDENTIFIED BY \x27mysql_test_pass\x27;") u2,
         Event.run (mysqlExec "GRANT ALL PRIVILEGES ON dungeongate_mysql_test.* TO \x27dungeongate_mysql\x27@\x27localhost\x27;") u3,
         Event.run (mysqlExec "FLUSH PRIVILEGES;") u4] :=
  ⟨w.oracle w.calls (mysqlExec "CREATE DATABASE IF NOT EXISTS dungeongate_mysql_test;"),
   w.oracle (w.calls + 1)
     (mysqlExec "CREATE USER IF NOT EXISTS \x27dungeongate_mysql\x27@\x27localhost\x27 IDENTIFIED BY \x27mysql_test_pass\x27;"),
   w.oracle (w.calls + 1 + 1)
     (mysqlExec "GRANT ALL PRIVILEGES ON dungeongate_mysql_test.* TO \x27dungeongate_mysql\x27@\x27localhost\x27;"),
   w.oracle (w.calls + 1 + 1 + 1) (mysqlExec "FLUSH PRIVILEGES;"),
   by simp [mysqlCreateResources, mysql_commands, runCmd]⟩

/-- The platform-conditional start command of the PostgreSQL provisioner. -/
def pgStartCmd (d : Bool) : String := if d then pgStartMacCmd else pgStartLinuxCmd

/-- The platform-conditional start command of the MySQL provisioner. -/
def mysqlStartCmd (d : Bool) : String := if d then mysqlStartMacCmd else mysqlStartLinuxCmd

lemma setup_pg_guard (d : Bool) (w : World) :
    ∃ tail, (setup_postgresql d w).2.trace = w.trace ++ tail ∧
      ∀ db, Guarded (isCreationOf db) (isProbeTrueOf db) tail := by
  have hst : ∀ x : World,
      (if d then runCmd pgStartMacCmd x else runCmd pgStartLinuxCmd x) =
        runCmd (pgStartCmd d) x := fun x => by
    cases d <;> rfl
  simp only [setup_postgresql, hst]
  split
  · refine ⟨[Event.run whichPsqlCmd (w.oracle w.calls whichPsqlCmd)],
      by simp [runCmd], ?_⟩
    intro db
    apply guarded_of_none
    intro e he
    simp only [List.mem_singleton] at he
    subst he
    exact isCreationOf_run_false db whichPsqlCmd _ (by decide)
  · rename_i h0
    split
    · rename_i h1
      obtain ⟨u1, u2, u3, hctr⟩ :=
        pgCreate_trace (runCmd pgProbeCmd (runCmd whichPsqlCmd w).2).2
      refine ⟨[Event.run whichPsqlCmd (w.oracle w.calls whichPsqlCmd),
          Event.run pgProbeCmd (w.oracle (w.calls + 1) pgProbeCmd)] ++
          [Event.run createUserCmd u1, Event.run createDbCmd u2,
           Event.run alterPwCmd u3], ?_, ?_⟩
      · show (pgCreateResources (runCmd pgProbeCmd (runCmd whichPsqlCmd w).2).2).trace = _
        rw [hctr]
        simp [runCmd]
      · intro db
        cases db with
        | sqlite => exact guarded_of_none (fun e _ => isCreationOf_sqlite e)
        | postgresql =>
          apply guarded_front_wit
          · intro e he
            simp only [List.mem_cons, List.not_mem_nil, or_false] at he
            rcases he with rfl | rfl
            · exact isCreationOf_run_false _ _ _ (by decide)
            · exact isCreationOf_run_false _ _ _ (by decide)
          · refine ⟨Event.run pgProbeCmd (w.oracle (w.calls + 1) pgProbeCmd),
              by simp, ?_⟩
            have h1c : ((w.oracle (w.calls + 1) pgProbeCmd).exitCode == 0) = true := h1
            simp [isProbeTrueOf, h1c]
        | mysql =>
          apply guarded_of_none
          apply forall_false_append
          · intro e he
            simp only [List.mem_cons, List.not_mem_nil, or_false] at he
            rcases he with rfl | rfl
            · exact isCreationOf_run_false _ _ _ (by decide)
            · exact isCreationOf_run_false _ _ _ (by decide)
          · intro e he
            simp only [List.mem_cons, List.not_mem_nil, or_false] at he
            rcases he with rfl | rfl | rfl
            · exact isCreationOf_mysql_run_false _ _ (by decide)
            · exact isCreationOf_mysql_run_false _ _ (by decide)
            · exact isCreationOf_mysql_run_false _ _ (by decide)
    · rename_i h1
      obtain ⟨wtail, hwt, hwm, hww⟩ :=
        waitLoop_trace pgProbeCmd 30
          (runCmd (pgStartCmd d) (runCmd pgProbeCmd (runCmd whichPsqlCmd w).2).2).2
      have ht1 : (runCmd (pgStartCmd d)
            (runCmd pgProbeCmd (runCmd whichPsqlCmd w).2).2).2.trace =
          w.trace ++ [Event.run whichPsqlCmd (w.oracle w.calls whichPsqlCmd),
            Event.run pgProbeCmd (w.oracle (w.calls + 1) pgProbeCmd),
            Event.run (pgStartCmd d) (w.oracle (w.calls + 1 + 1) (pgStartCmd d))] := by
        simp [runCmd]
      have hn1 : ∀ db2 : Db, ∀ e ∈
          [Event.run whichPsqlCmd (w.oracle w.calls whichPsqlCmd),
           Event.run pgProbeCmd (w.oracle (w.calls + 1) pgProbeCmd),
           Event.run (pgStartCmd d) (w.oracle (w.calls + 1 + 1) (pgStartCmd d))],
          isCreationOf db2 e = false := by
        intro db2 e he
        simp only [List.mem_cons, List.not_mem_nil, or_false] at he
        rcases he with rfl | rfl | rfl
        · exact isCreationOf_run_false _ _ _ (by decide)
        · exact isCreationOf_run_false _ _ _ (by decide)
        · cases d <;> exact isCreationOf_run_false _ _ _ (by decide)
      have hn2 : ∀ db2 : Db, ∀ e ∈ wtail, isCreationOf db2 e = false :=
        fun db2 => creation_false_of_shape hwm (by decide)
      split
      · rename_i hwl
        obtain ⟨u1, u2, u3, hctr⟩ := pgCreate_trace
          (waitLoop pgProbeCmd 30
            (runCmd (pgStartCmd d) (runCmd pgProbeCmd (runCmd whichPsqlCmd w).2).2).2).2
        refine ⟨([Event.run whichPsqlCmd (w.oracle w.calls whichPsqlCmd),
            Event.run pgProbeCmd (w.oracle (w.calls + 1) pgProbeCmd),
            Event.run (pgStartCmd d) (w.oracle (w.calls + 1 + 1) (pgStartCmd d))] ++
            wtail) ++
            [Event.run createUserCmd u1, Event.run createDbCmd u2,
             Event.run alterPwCmd u3], ?_, ?_⟩
        · show (pgCreateResources _).trace = _
          rw [hctr, hwt, ht1]
          simp
        · intro db
          cases db with
          | sqlite => exact guarded_of_none (fun e _ => isCreationOf_sqlite e)
          | postgresql =>
            apply guarded_front_wit
            · exact forall_false_append (hn1 Db.postgresql) (hn2 Db.postgresql)
            · obtain ⟨out, hmem, hex⟩ := hww hwl
              refine ⟨Event.run pgProbeCmd out,
                List.mem_append.mpr (Or.inr hmem), ?_⟩
              simp [isProbeTrueOf, hex]
          | mysql =>
            apply guarded_of_none
            apply forall_false_append
              (forall_false_append (hn1 Db.mysql) (hn2 Db.mysql))
            intro e he
            simp only [List.mem_cons, List.not_mem_nil, or_false] at he
            rcases he with rfl | rfl | rfl
            · exact isCreationOf_mysql_run_false _ _ (by decide)
            · exact isCreationOf_mysql_run_false _ _ (by decide)
            · exact isCreationOf_mysql_run_false _ _ (by decide)
      · refine ⟨[Event.run whichPsqlCmd (w.oracle w.calls whichPsqlCmd),
            Event.run pgProbeCmd (w.oracle (w.calls + 1) pgProbeCmd),
            Event.run (pgStartCmd d) (w.oracle (w.calls + 1 + 1) (pgStartCmd d))] ++
            wtail, ?_, ?_⟩
        · show (waitLoop pgProbeCmd 30 _).2.trace = _
          rw [hwt, ht1]
          simp
        · intro db
          exact guarded_of_none (forall_false_append (hn1 db) (hn2 db))

lemma setup_mysql_guard (d : Bool) (w : World) :
    ∃ tail, (setup_mysql d w).2.trace = w.trace ++ tail ∧
      ∀ db, Guarded (isCreationOf db) (isProbeTrueOf db) tail := by
  have hst : ∀ x : World,
      (if d then runCmd mysqlStartMacCmd x else runCmd mysqlStartLinuxCmd x) =
        runCmd (mysqlStartCmd d) x := fun x => by
    cases d <;> rfl
  simp only [setup_mysql, hst]
  split
  · refine ⟨[Event.run whichMysqlCmd (w.oracle w.calls whichMysqlCmd)],
      by simp [runCmd], ?_⟩
    intro db
    apply guarded_of_none
    intro e he
    simp only [List.mem_singleton] at he
    subst he
    exact isCreationOf_run_false db whichMysqlCmd _ (by decide)
  · rename_i h0
    split
    · rename_i h1
      obtain ⟨u1, u2, u3, u4, hctr⟩ :=
        mysqlCreate_trace (runCmd mysqlProbeCmd (runCmd whichMysqlCmd w).2).2
      refine ⟨[Event.run whichMysqlCmd (w.oracle w.calls whichMysqlCmd),
          Event.run mysqlProbeCmd (w.oracle (w.calls + 1) mysqlProbeCmd)] ++
          [Event.run (mysqlExec "CREATE DATABASE IF NOT EXISTS dungeongate_mysql_test;") u1,
           Event.run (mysqlExec "CREATE USER IF NOT EXISTS \x27dungeongate_mysql\x27@\x27localhost\x27 IDENTIFIED BY \x27mysql_test_pass\x27;") u2,
           Event.run (mysqlExec "GRANT ALL PRIVILEGES ON dungeongate_mysql_test.* TO \x27dungeongate_mysql\x27@\x27localhost\x27;") u3,
           Event.run (mysqlExec "FLUSH PRIVILEGES;") u4], ?_, ?_⟩
      · show (mysqlCreateResources (runCmd mysqlProbeCmd (runCmd whichMysqlCmd w).2).2).trace = _
        rw [hctr]
        simp [runCmd]
      · intro db
        cases db with
        | sqlite => exact guarded_of_none (fun e _ => isCreationOf_sqlite e)
        | mysql =>
          apply guarded_front_wit
          · intro e he
            simp only [List.mem_cons, List.not_mem_nil, or_false] at he
            rcases he with rfl | rfl
            · exact isCreationOf_run_false _ _ _ (by decide)
            · exact isCreationOf_run_false _ _ _ (by decide)
          · refine ⟨Event.run mysqlProbeCmd (w.oracle (w.calls + 1) mysqlProbeCmd),
              by simp, ?_⟩
            have h1c : ((w.oracle (w.calls + 1) mysqlProbeCmd).exitCode == 0) = true := h1
            simp [isProbeTrueOf, h1c]
        | postgresql =>
          apply guarded_of_none
          apply forall_false_append
          · intro e he
            simp only [List.mem_cons, List.not_mem_nil, or_false] at he
            rcases he with rfl | rfl
            · exact isCreationOf_run_false _ _ _ (by decide)
            · exact isCreationOf_run_false _ _ _ (by decide)
          · intro e he
            simp only [List.mem_cons, List.not_mem_nil, or_false] at he
            rcases he with rfl | rfl | rfl | rfl
            · exact isCreationOf_pg_run_false _ _ (by decide)
            · exact isCreationOf_pg_run_false _ _ (by decide)
            · exact isCreationOf_pg_run_false _ _ (by decide)
            · exact isCreationOf_pg_run_false _ _ (by decide)
    · rename_i h1
      obtain ⟨wtail, hwt, hwm, hww⟩ :=
        waitLoop_trace mysqlProbeCmd 30
          (runCmd (mysqlStartCmd d) (runCmd mysqlProbeCmd (runCmd whichMysqlCmd w).2).2).2
      have ht1 : (runCmd (mysqlStartCmd d)
            (runCmd mysqlProbeCmd (runCmd whichMysqlCmd w).2).2).2.trace =
          w.trace ++ [Event.run whichMysqlCmd (w.oracle w.calls whichMysqlCmd),
            Event.run mysqlProbeCmd (w.oracle (w.calls + 1) mysqlProbeCmd),
            Event.run (mysqlStartCmd d) (w.oracle (w.calls + 1 + 1) (mysqlStartCmd d))] := by
        simp [runCmd]
      have hn1 : ∀ db2 : Db, ∀ e ∈
          [Event.run whichMysqlCmd (w.oracle w.calls whichMysqlCmd),
           Event.run mysqlProbeCmd (w.oracle (w.calls + 1) mysqlProbeCmd),
           Event.run (mysqlStartCmd d) (w.oracle (w.calls + 1 + 1) (mysqlStartCmd d))],
          isCreationOf db2 e = false := by
        intro db2 e he
        simp only [List.mem_cons, List.not_mem_nil, or_false] at he
        rcases he with rfl | rfl | rfl
        · exact isCreationOf_run_false _ _ _ (by decide)
        · exact isCreationOf_run_false _ _ _ (by decide)
        · cases d <;> exact isCreationOf_run_false _ _ _ (by decide)
      have hn2 : ∀ db2 : Db, ∀ e ∈ wtail, isCreationOf db2 e = false :=
        fun db2 => creation_false_of_shape hwm (by decide)
      split
      · rename_i hwl
        obtain ⟨u1, u2, u3, u4, hctr⟩ := mysqlCreate_trace
          (waitLoop mysqlProbeCmd 30
            (runCmd (mysqlStartCmd d) (runCmd mysqlProbeCmd (runCmd whichMysqlCmd w).2).2).2).2
        refine ⟨([Event.run whichMysqlCmd (w.oracle w.calls whichMysqlCmd),
            Event.run mysqlProbeCmd (w.oracle (w.calls + 1) mysqlProbeCmd),
            Event.run (mysqlStartCmd d) (w.oracle (w.calls + 1 + 1) (mysqlStartCmd d))] ++
            wtail) ++
            [Event.run (mysqlExec "CREATE DATABASE IF NOT EXISTS dungeongate_mysql_test;") u1,
             Event.run (mysqlExec "CREATE USER IF NOT EXISTS \x27dungeongate_mysql\x27@\x27localhost\x27 IDENTIFIED BY \x27mysql_test_pass\x27;") u2,
             Event.run (mysqlExec "GRANT ALL PRIVILEGES ON dungeongate_mysql_test.* TO \x27dungeongate_mysql\x27@\x27localhost\x27;") u3,
             Event.run (mysqlExec "FLUSH PRIVILEGES;") u4], ?_, ?_⟩
        · show (mysqlCreateResources _).trace = _
          rw [hctr, hwt, ht1]
          simp
        · intro db
          cases db with
          | sqlite => exact guarded_of_none (fun e _ => isCreationOf_sqlite e)
          | mysql =>
            apply guarded_front_wit
            · exact forall_false_append (hn1 Db.mysql) (hn2 Db.mysql)
            · obtain ⟨out, hmem, hex⟩ := hww hwl
              refine ⟨Event.run mysqlProbeCmd out,
                List.mem_append.mpr (Or.inr hmem), ?_⟩
              simp [isProbeTrueOf, hex]
          | postgresql =>
            apply guarded_of_none
            apply forall_false_append
              (forall_false_append (hn1 Db.postgresql) (hn2 Db.postgresql))
            intro e he
            simp only [List.mem_cons, List.not_mem_nil, or_false] at he
            rcases he with rfl | rfl | rfl | rfl
            · exact isCreationOf_pg_run_false _ _ (by decide)
            · exact isCreationOf_pg_run_false _ _ (by decide)
            · exact isCreationOf_pg_run_false _ _ (by decide)
            · exact isCreationOf_pg_run_false _ _ (by decide)
      · refine ⟨[Event.run whichMysqlCmd (w.oracle w.calls whichMysqlCmd),
            Event.run mysqlProbeCmd (w.oracle (w.calls + 1) mysqlProbeCmd),
            Event.run (mysqlStartCmd d) (w.oracle (w.calls + 1 + 1) (mysqlStartCmd d))] ++
            wtail, ?_, ?_⟩
        · show (waitLoop mysqlProbeCmd 30 _).2.trace = _
          rw [hwt, ht1]
          simp
        · intro db
          exact guarded_of_none (forall_false_append (hn1 db) (hn2 db))

lemma setup_sqlite_guard (w : World) :
    ∃ tail, (setup_sqlite w).2.trace = w.trace ++ tail ∧
      ∀ db, Guarded (isCreationOf db) (isProbeTrueOf db) tail := by
  refine ⟨[Event.mkdirs "test-data/sqlite"], rfl, ?_⟩
  intro db
  apply guarded_of_none
  intro e he
  simp only [List.mem_singleton] at he
  subst he
  exact isCreationOf_mkdirs db _

lemma test_connection_guard (db0 : Db) (w : World) :
    ∃ tail, (test_connection db0 w).2.trace = w.trace ++ tail ∧
      ∀ db, Guarded (isCreationOf db) (isProbeTrueOf db) tail := by
  cases db0 with
  | sqlite =>
    exact ⟨[], by simp [test_connection], fun db => guarded_of_none (by simp)⟩
  | postgresql =>
    refine ⟨[Event.run pgTestCmd (w.oracle w.calls pgTestCmd)],
      by simp [test_connection, runCmd], ?_⟩
    intro db
    apply guarded_of_none
    intro e he
    simp only [List.mem_singleton] at he
    subst he
    exact isCreationOf_run_false db pgTestCmd _ (by decide)
  | mysql =>
    refine ⟨[Event.run mysqlTestCmd (w.oracle w.calls mysqlTestCmd)],
      by simp [test_connection, runCmd], ?_⟩
    intro db
    apply guarded_of_none
    intro e he
    simp only [List.mem_singleton] at he
    subst he
    exact isCreationOf_run_false db mysqlTestCmd _ (by decide)

lemma provisionOne_guard (d r : Bool) (db0 : Db) (w : World) :
    ∃ tail, (provisionOne d r db0 w).2.trace = w.trace ++ tail ∧
      ∀ db, Guarded (isCreationOf db) (isProbeTrueOf db) tail := by
  cases db0 with
  | sqlite => exact setup_sqlite_guard w
  | postgresql =>
    cases r with
    | false => exact setup_pg_guard d w
    | true =>
      have h : provisionOne d true Db.postgresql w = setup_postgresql d w := by
        rw [show provisionOne d true Db.postgresql w = setup_postgresql_replica d w from rfl,
          replica_eq]
      rw [h]
      exact setup_pg_guard d w
  | mysql => exact setup_mysql_guard d w

lemma mainLoop_guard (d t r : Bool) (dbs : List Db) :
    ∀ (acc : Bool) (w : World), ∃ tail,
      (mainLoop d t r dbs acc w).2.1.trace = w.trace ++ tail ∧
      ∀ db, Guarded (isCreationOf db) (isProbeTrueOf db) tail := by
  induction dbs with
  | nil =>
    intro acc w
    exact ⟨[], by simp [mainLoop], fun db => guarded_of_none (by simp)⟩
  | cons db0 rest ih =>
    intro acc w
    obtain ⟨t1, ht1, hg1⟩ := provisionOne_guard d r db0 w
    by_cases ht : ((t && (acc && (provisionOne d r db0 w).1)) = true)
    · have hunf : (mainLoop d t r (db0 :: rest) acc w).2.1 =
          (mainLoop d t r rest
            (if (test_connection db0 (provisionOne d r db0 w).2).1 then
              acc && (provisionOne d r db0 w).1 else false)
            (test_connection db0 (provisionOne d r db0 w).2).2).2.1 := by
        simp only [mainLoop]
        rw [if_pos ht]
      obtain ⟨t2, ht2, hg2⟩ := test_connection_guard db0 (provisionOne d r db0 w).2
      obtain ⟨t3, ht3, hg3⟩ := ih
        (if (test_connection db0 (provisionOne d r db0 w).2).1 then
          acc && (provisionOne d r db0 w).1 else false)
        (test_connection db0 (provisionOne d r db0 w).2).2
      refine ⟨(t1 ++ t2) ++ t3, ?_,
        fun db => guarded_append (guarded_append (hg1 db) (hg2 db)) (hg3 db)⟩
      rw [hunf, ht3, ht2, ht1]
      simp [List.append_assoc]
    · have hunf : (mainLoop d t r (db0 :: rest) acc w).2.1 =
          (mainLoop d t r rest (acc && (provisionOne d r db0 w).1)
            (provisionOne d r db0 w).2).2.1 := by
        simp only [mainLoop]
        rw [if_neg ht]
      obtain ⟨t3, ht3, hg3⟩ := ih (acc && (provisionOne d r db0 w).1)
        (provisionOne d r db0 w).2
      refine ⟨t1 ++ t3, ?_, fun db => guarded_append (hg1 db) (hg3 db)⟩
      rw [hunf, ht3, ht1, List.append_assoc]

/-- C3: in every run, a resource-creation command of a backend is recorded
in the trace only after a successful readiness probe of that backend: every
trace prefix containing a creation event of the backend already contains a
probe-success event of it.  In particular, when the poller exhausts its
budget without success the provisioner returns with no creation command
issued.  The file-based backend issues no creation commands at all. -/
theorem creation_after_probe (choice : DbChoice) (d t r : Bool) (o : Oracle) (wr : Bool)
    (db : Db) (k : Nat)
    (hc : ∃ e ∈ (provisionAll choice d t r o wr).2.1.trace.take k,
      isCreationOf db e = true) :
    ∃ e ∈ (provisionAll choice d t r o wr).2.1.trace.take k,
      isProbeTrueOf db e = true := by
  obtain ⟨tail, htr, hg⟩ := mainLoop_guard d t r (resolveDbs choice) true (initWorld o wr)
  have h0 : (provisionAll choice d t r o wr).2.1.trace = tail := by
    show (mainLoop d t r (resolveDbs choice) true (initWorld o wr)).2.1.trace = tail
    rw [htr]
    rfl
  rw [h0] at hc ⊢
  exact hg db k hc

theorem creation_after_probe_witness :
    (∃ e ∈ (provisionAll DbChoice.postgresql false false false okOracle true).2.1.trace.take 5,
      isCreationOf Db.postgresql e = true) ∧
    (∃ e ∈ (provisionAll DbChoice.postgresql false false false okOracle true).2.1.trace.take 5,
      isProbeTrueOf Db.postgresql e = true) :=
  ⟨by decide,
   creation_after_probe DbChoice.postgresql false false false okOracle true
     Db.postgresql 5 (by decide)⟩

end DungeonGate
